import Mathlib

/-!
Verification development for the AICrawler repository.

The Python sources under review are shallowly embedded in Lean:
pure computations become Lean functions, stateful/fallible code becomes
explicit state passing with `Except`, Python float arithmetic in the
relevance filters is modelled exactly over `ℚ` (every operation used is
+, *, / on small decimal constants, so the rational model and IEEE doubles
agree on every comparison proved here at the inputs used), and external
libraries (BeautifulSoup/lxml parsing, rank_bm25 scoring, snowball
stemming, Playwright) appear as explicit parameters or environment
records describing the outcome of each external call.
-/

namespace AICrawler

/-- Model of the Python exceptions the embedded code can raise or handle.
`playwrightError` stands for `playwright.async_api.Error`; `timeoutError`
for `PlaywrightTimeoutError`, which subclasses `Error`; the remaining
constructors are ordinary Python exceptions (all subclass `Exception`). -/
inductive PyErr where
  | unboundLocal (name : String)
  | attributeError (name : String)
  | playwrightError (msg : String)
  | timeoutError (msg : String)
  | valueError (msg : String)
  | otherError (msg : String)
deriving DecidableEq, Repr

/-- Which model exceptions are caught by `except Error` (Playwright errors;
`PlaywrightTimeoutError` subclasses `Error`). -/
def PyErr.isPlaywrightError : PyErr → Bool
  | .playwrightError _ => true
  | .timeoutError _ => true
  | _ => false

/-- Model of Python `str(e)`. -/
def PyErr.str : PyErr → String
  | .unboundLocal n => "UnboundLocalError: " ++ n
  | .attributeError n => "AttributeError: " ++ n
  | .playwrightError m => m
  | .timeoutError m => m
  | .valueError m => m
  | .otherError m => m

/-- Python truthiness of `Optional[str]`: `None` and `""` are falsy. -/
def optStrTruthy : Option String → Bool
  | none => false
  | some s => s ≠ ""

/-! Python `str` primitives, implemented over the character list of the
string so that every concrete instance reduces by `decide`. -/

/-- `str.lower()`. -/
def strToLower (s : String) : String := ⟨s.data.map Char.toLower⟩

/-- `str.strip()`. -/
def strTrim (s : String) : String :=
  ⟨((s.data.dropWhile Char.isWhitespace).reverse.dropWhile
      Char.isWhitespace).reverse⟩

/-- `s[n:]`. -/
def strDrop (s : String) (n : Nat) : String := ⟨s.data.drop n⟩

/-- `str.startswith(pre)`. -/
def strStartsWith (s pre : String) : Bool := pre.data.isPrefixOf s.data

/-- `str.endswith(suf)`. -/
def strEndsWith (s suf : String) : Bool :=
  suf.data.reverse.isPrefixOf s.data.reverse

def containsChars (pat : List Char) : List Char → Bool
  | [] => pat.isEmpty
  | c :: rest => pat.isPrefixOf (c :: rest) || containsChars pat rest

/-- Substring test (model of Python `in` on strings and of an unanchored
regex-alternation search). -/
def strContains (s pat : String) : Bool :=
  containsChars pat.data s.data

/-- `sep.join(parts)`. -/
def joinSep (sep : String) : List String → String
  | [] => ""
  | [x] => x
  | x :: y :: rest => x ++ sep ++ joinSep sep (y :: rest)

/-- The character runs satisfying `p` (the whitespace-split / regex-findall
worker): `acc` holds the current run reversed. -/
def tokenRuns (p : Char → Bool) : List Char → List Char → List (List Char)
  | [], acc => if acc.isEmpty then [] else [acc.reverse]
  | c :: rest, acc =>
      if p c then tokenRuns p rest (c :: acc)
      else if acc.isEmpty then tokenRuns p rest []
      else acc.reverse :: tokenRuns p rest []

/-! ## HTML tree model

BeautifulSoup documents are embedded as a mutual inductive of nodes and
forests (the parser itself, lxml, is an external library: the filters
receive both the raw HTML string and its parse). -/

mutual
/-- One BeautifulSoup node: a `Tag` with name, attributes and children,
a `NavigableString`, or a `Comment`. -/
inductive HNode where
  | tag (name : String) (attrs : List (String × String)) (children : HForest)
  | text (s : String)
  | comment (s : String)

/-- A sequence of sibling nodes. -/
inductive HForest where
  | nil
  | cons (n : HNode) (f : HForest)
end

mutual
/-- `get_text(strip=True)`: concatenation of the stripped contents of all
descendant `NavigableString`s, in document order (comments excluded). -/
def HNode.get_text : HNode → String
  | .tag _ _ f => f.get_text
  | .text s => strTrim s
  | .comment _ => ""

def HForest.get_text : HForest → String
  | .nil => ""
  | .cons n f => n.get_text ++ f.get_text
end

mutual
/-- `str(node)`: serialize a node back to HTML text. -/
def HNode.serialize : HNode → String
  | .tag name attrs f =>
      let attrsStr := attrs.foldl
        (fun acc p => acc ++ " " ++ p.1 ++ "=\"" ++ p.2 ++ "\"") ""
      "<" ++ name ++ attrsStr ++ ">" ++ f.serialize ++ "</" ++ name ++ ">"
  | .text s => s
  | .comment s => "<!--" ++ s ++ "-->"

def HForest.serialize : HForest → String
  | .nil => ""
  | .cons n f => n.serialize ++ f.serialize
end

/-- `tag.get(key)`: attribute lookup. -/
def HNode.getAttr (n : HNode) (key : String) : Option String :=
  match n with
  | .tag _ attrs _ => (attrs.find? (fun p => p.1 = key)).map (·.2)
  | _ => none

/-- The tag name, if the node is a tag. -/
def HNode.tagName : HNode → Option String
  | .tag name _ _ => some name
  | _ => none

def HForest.toList : HForest → List HNode
  | .nil => []
  | .cons n f => n :: f.toList

mutual
/-- All tag descendants of a node, in document (pre-order) traversal order,
excluding the node itself — the order `find_all` yields results in. -/
def HNode.descendantTags : HNode → List HNode
  | .tag _ _ f => f.allTags
  | _ => []

/-- All tags in a forest in pre-order, each tag followed by its descendants. -/
def HForest.allTags : HForest → List HNode
  | .nil => []
  | .cons n f =>
      (match n with
       | .tag name attrs c => .tag name attrs c :: (HForest.allTags c)
       | _ => []) ++ f.allTags
end

/-- First tag with the given name, in pre-order: the lookup behind
`soup.body`, `soup.title`, `soup.find("h1")`. -/
def HForest.findTag (f : HForest) (name : String) : Option HNode :=
  (f.allTags).find? (fun n => n.tagName = some name)

/-- `soup.find("meta", attrs={"name": "description"})`. -/
def HForest.findMetaDescription (f : HForest) : Option HNode :=
  (f.allTags).find? (fun n =>
    n.tagName = some "meta" && n.getAttr "name" = some "description")

/-- BeautifulSoup `.string`: the single string child, recursing through a
single tag child; `None` otherwise. -/
def HNode.bsString : HNode → Option String
  | .tag _ _ (.cons (.text s) .nil) => some s
  | .tag _ _ (.cons (.tag n a c) .nil) => HNode.bsString (.tag n a c)
  | _ => none

/-! ## RelevantContentFilter (src/content_filter_strategy.py) -/

/-- `excluded_tags` of `RelevantContentFilter.__init__`. -/
def excluded_tags : List String :=
  ["nav", "footer", "header", "aside", "script",
   "style", "form", "iframe", "noscript"]

/-- The alternation words of `negative_patterns` (case-insensitive search). -/
def negative_patterns : List String :=
  ["nav", "footer", "header", "sidebar", "ads", "comment", "promo",
   "advert", "social", "share"]

/-- The `significant_tags` set of `extract_text_chunks`. -/
def significant_tags : List String :=
  ["p", "h1", "h2", "h3", "h4", "h5", "h6", "li", "pre", "blockquote", "td"]

/-- `RelevantContentFilter.min_word_count`. -/
def min_word_count : Nat := 5

/-- `" ".join(tag.get("class", []))` — the class attribute is parsed as a
space separated token list by BeautifulSoup; joining with spaces gives back
the attribute text, so the model keeps the raw attribute string. -/
def classIdString (n : HNode) : String :=
  ((n.getAttr "class").getD "") ++ " " ++ ((n.getAttr "id").getD "")

/-- `RelevantContentFilter.is_excluded`. -/
def is_excluded (n : HNode) : Bool :=
  match n.tagName with
  | none => false
  | some name =>
      name ∈ excluded_tags ||
      negative_patterns.any
        (fun p => strContains (strToLower (classIdString n)) p)

/-- Number of words of `text.split()` (maximal non-whitespace runs). -/
def wordCount (s : String) : Nat :=
  (tokenRuns (fun c => !c.isWhitespace) s.data []).length

/-- `RelevantContentFilter.extract_text_chunks(body)`: enumerate the
significant-tag descendants of `body` in document order, drop excluded
tags and tags whose stripped text has fewer than `min_word_count` words;
keep `(enumeration index, text, tag)`. -/
def extract_text_chunks (body : HNode) : List (Nat × String × HNode) :=
  let found := (body.descendantTags).filter
    (fun t => match t.tagName with
              | some nm => nm ∈ significant_tags
              | none => false)
  found.enum.filterMap (fun p =>
    if is_excluded p.2 then none
    else
      let text := p.2.get_text
      if min_word_count ≤ wordCount text then some (p.1, text, p.2) else none)

/-- `RelevantContentFilter.extract_page_query`, split into the three
conditional contributions of the source. -/
def title_part (soup : HForest) : Option String :=
  match soup.findTag "title" with
  | none => none
  | some t => t.bsString

def h1_part (soup : HForest) : Option String :=
  match soup.findTag "h1" with
  | none => none
  | some h => some h.get_text

def meta_part (soup : HForest) : Option String :=
  match soup.findMetaDescription with
  | none => none
  | some m => if optStrTruthy (m.getAttr "content") then m.getAttr "content" else none

/-- `extract_page_query`: the user query when truthy, otherwise
`" ".join(filter(None, query_parts))` over title string, first h1 text and
meta description. -/
def extract_page_query (user_query : Option String) (soup : HForest) : String :=
  if optStrTruthy user_query then user_query.getD "" else
    let parts := (title_part soup).toList ++ (h1_part soup).toList ++
      (meta_part soup).toList
    joinSep " " (parts.filter (· ≠ ""))

/-! ## BM25ContentFilter -/

/-- Configuration state of a `BM25ContentFilter` object (the fields set in
`__init__` that `filter_content` reads). -/
structure BM25Config where
  user_query : Option String := none
  bm25_threshold : ℚ := 1/2
deriving DecidableEq, Repr

/-- Maximal runs of `\w` characters (the `\b\w+\b` findall), lower-cased. -/
def wordTokens (s : String) : List String :=
  (tokenRuns (fun c => c.isAlphanum || c = '_') (strToLower s).data []).map
    (fun l => (⟨l⟩ : String))

/-- `BM25ContentFilter._tokenize`: regex token extraction then stemming;
the snowball stemmer is an external library, passed in as `stemWords`. -/
def tokenize (stemWords : List String → List String) (s : String) :
    List String :=
  stemWords (wordTokens s)

/-- `BM25ContentFilter.filter_content`.  `soup` is the external parse of
`html` (`BeautifulSoup(html, "lxml")`); `bm25 corpus query i` is the score
`BM25Okapi(corpus).get_scores(query)[i]` of the external rank_bm25 library,
which returns one score per corpus document. -/
def BM25_filter_content (cfg : BM25Config)
    (stemWords : List String → List String)
    (bm25 : List (List String) → List String → Nat → ℚ)
    (html : String) (soup : HForest) : List String :=
  if html = "" then [] else
  match soup.findTag "body" with
  | none => []
  | some body =>
    let query := extract_page_query cfg.user_query soup
    if query = "" then [] else
    let tokenized_query := tokenize stemWords query
    let candidates := extract_text_chunks body
    if candidates.isEmpty then [] else
    let corpus := candidates.map (fun c => tokenize stemWords c.2.1)
    let scores := (List.range candidates.length).map (bm25 corpus tokenized_query)
    let selected := (candidates.zip scores).filterMap (fun p =>
      if cfg.bm25_threshold ≤ p.2 then some (p.1.1, p.1.2.2.serialize) else none)
    let sortedSel := selected.insertionSort (fun a b => a.1 ≤ b.1)
    sortedSel.map (·.2)

/-- One `filter_content` call on a BM25 filter object, with the object
state threaded explicitly: the method writes no attribute of `self` and
re-parses `html` afresh, so the state is returned unchanged. -/
def BM25_run (cfg : BM25Config)
    (stemWords : List String → List String)
    (bm25 : List (List String) → List String → Nat → ℚ)
    (html : String) (soup : HForest) : List String × BM25Config :=
  (BM25_filter_content cfg stemWords bm25 html soup, cfg)

/-! ## PruningContentFilter -/

/-- The `tag_weights` table of `PruningContentFilter.__init__` with the
`.get(name, 0.7)` default. -/
def tag_weight (name : String) : ℚ :=
  if name = "p" then 1 else if name = "article" then 3/2
  else if name = "main" then 7/5 else if name = "section" then 6/5
  else if name = "h1" then 13/10 else if name = "h2" then 6/5
  else if name = "h3" then 11/10 else if name = "div" then 4/5
  else if name = "span" then 3/5 else if name = "li" then 7/10
  else 7/10

/-- Configuration state of a `PruningContentFilter` object (the attributes
its methods read: the threshold and the tag-weight lookup). -/
structure PruningConfig where
  user_query : Option String := none
  threshold : ℚ := 9/20
  tag_weights : String → ℚ := tag_weight

/-- The density part of `_compute_node_score` (reached only when the text
length passed the minimum-length guard). -/
def compute_node_score_density (cfg : PruningConfig) (node : HNode)
    (name : String) : ℚ :=
  let text_len : ℚ := (node.get_text).length
  let total_len : ℚ := (node.serialize).length
  let text_density := if 0 < total_len then text_len / total_len else 0
  let childList : List HNode :=
    match node with
    | .tag _ _ f => f.toList
    | _ => []
  let link_text_len : ℚ :=
    (childList.filter (fun c => c.tagName = some "a")).foldl
      (fun acc a => acc + ((a.get_text).length : ℚ)) 0
  let link_density := if 0 < text_len then link_text_len / text_len else 1/2
  text_density * (6/5) + (1 - link_density) * (4/5) * cfg.tag_weights name

/-- `PruningContentFilter._compute_node_score` (exact rational model of the
float formula). -/
def compute_node_score (cfg : PruningConfig) (node : HNode) : ℚ :=
  match node.tagName with
  | none => 0
  | some name =>
    if ((node.get_text).length : ℚ) < min_word_count * 3 then 0
    else compute_node_score_density cfg node name

mutual
/-- `PruningContentFilter._prune_tree`: prune all tag children first
(post-order), then score the node on its pruned subtree and decompose it
when the score is below the threshold (`none` = decomposed). -/
def prune_tree (cfg : PruningConfig) : HNode → Option HNode
  | .tag name attrs f =>
      let node' : HNode := .tag name attrs (prune_forest cfg f)
      if compute_node_score cfg node' < cfg.threshold then none else some node'
  | .text s => some (.text s)
  | .comment s => some (.comment s)

def prune_forest (cfg : PruningConfig) : HForest → HForest
  | .nil => .nil
  | .cons n f =>
      match n with
      | .tag name attrs c =>
          (match prune_tree cfg (.tag name attrs c) with
           | none => prune_forest cfg f
           | some n' => .cons n' (prune_forest cfg f))
      | other => .cons other (prune_forest cfg f)
end

mutual
/-- The `for tag in soup.find_all(True): if is_excluded: decompose` pass.
(The source materializes `find_all` first; decomposing an excluded tag
detaches its whole subtree, and re-decomposing already detached
descendants has no further effect on the tree, so top-down removal of
maximal excluded subtrees is equivalent.) -/
def remove_excluded_node : HNode → Option HNode
  | .tag name attrs f =>
      if is_excluded (.tag name attrs f) then none
      else some (.tag name attrs (remove_excluded_forest f))
  | other => some other

def remove_excluded_forest : HForest → HForest
  | .nil => .nil
  | .cons n f =>
      match remove_excluded_node n with
      | none => remove_excluded_forest f
      | some n' => .cons n' (remove_excluded_forest f)
end

mutual
/-- The comment-extraction pass of `PruningContentFilter.filter_content`. -/
def remove_comments_node : HNode → HNode
  | .tag name attrs f => .tag name attrs (remove_comments_forest f)
  | other => other

def remove_comments_forest : HForest → HForest
  | .nil => .nil
  | .cons n f =>
      match n with
      | .comment _ => remove_comments_forest f
      | other => .cons (remove_comments_node other) (remove_comments_forest f)
end

/-- Replace the first pre-order `body` tag (the one `soup.body` finds) by
the given pruning result, removing it when the result is `none`. -/
def replace_body (repl : Option HNode) : HForest → HForest
  | .nil => .nil
  | .cons n f =>
      match n with
      | .tag name attrs c =>
          if name = "body" then
            match repl with
            | none => f
            | some n' => .cons n' f
          else if (HForest.findTag c "body").isSome then
            .cons (.tag name attrs (replace_body repl c)) f
          else
            .cons (.tag name attrs c) (replace_body repl f)
      | other => .cons other (replace_body repl f)

/-- Direct tag children of a node (`find_all(recursive=False)` with the
redundant `isinstance(child, Tag)` filter). -/
def direct_tag_children (n : HNode) : List HNode :=
  match n with
  | .tag _ _ f => f.toList.filter (fun c => c.tagName.isSome)
  | _ => []

/-- `PruningContentFilter.filter_content`.  After `_prune_tree(soup.body)`
the source evaluates `soup.body` again; when the body itself was
decomposed this lookup yields `None`, and `None.find_all(...)` raises
`AttributeError` — modelled with `Except`. -/
def Pruning_filter_content (cfg : PruningConfig) (html : String)
    (soup : HForest) : Except PyErr (List String) :=
  if html = "" then .ok [] else
  let cleaned := remove_comments_forest (remove_excluded_forest soup)
  match cleaned.findTag "body" with
  | none => .ok []
  | some body =>
      let soup' := replace_body (prune_tree cfg body) cleaned
      match soup'.findTag "body" with
      | none => .error (.attributeError "find_all")
      | some body' => .ok ((direct_tag_children body').map (·.serialize))

/-- One `filter_content` call on a pruning filter object with its state
threaded explicitly (no attribute of `self` is written; the soup is a fresh
parse of `html` on every call). -/
def Pruning_run (cfg : PruningConfig) (html : String) (soup : HForest) :
    Except PyErr (List String) × PruningConfig :=
  (Pruning_filter_content cfg html soup, cfg)

/-- A tag node together with all its descendant tags, in pre-order (the
node set a surviving subtree contributes to the document). -/
def selfTags (n : HNode) : List HNode :=
  match n with
  | .tag name attrs f => .tag name attrs f :: f.allTags
  | _ => []

mutual
/-- The tag names occurring in a subtree, in pre-order. -/
def HNode.names : HNode → List String
  | .tag name _ f => name :: f.names
  | _ => []

def HForest.names : HForest → List String
  | .nil => []
  | .cons n f => n.names ++ f.names
end

/-! ## Configuration records (src/async_configs.py)

`CrawlerRunConfig.__init__` assigns exactly the attributes below (the
`scraping_strategy`, `markdown_generator` and `user_agent_generator_config`
plugin fields are opaque to the claims and omitted).  It assigns **no**
`check_robots_txt` attribute. -/

structure BrowserConfig where
  headless : Bool := true
  timeout : Nat := 6000
  user_agent : Option String := none
  viewport_width : Nat := 1920
  viewport_height : Nat := 1080
  screenshot_height_threshold : Nat := 15000
  accept_downloads : Bool := false
  downloads_path : String := "/tmp"
deriving DecidableEq, Repr

structure CrawlerRunConfig where
  wait_until : String := "load"
  page_timeout : Nat := 6000
  js_code : Option (List String) := none
  capture_network_requests : Bool := false
  screenshot : Bool := false
  process_iframes : Bool := false
  wait_for : Option String := none
  remove_overlay_elements : Bool := false
  user_agent_mode : String := "default"
  user_agent : Option String := none
  override_navigator : Bool := false
  simulate_user : Bool := false
  magic : Bool := false
  scan_full_page : Bool := false
  scroll_delay : ℚ := 1/10
  capture_console_messages : Bool := false
  prettify : Bool := false
  fetch_ssl_certificate : Bool := false
  capture_mhtml : Bool := false
deriving DecidableEq, Repr

/-- Python attribute lookup `config.check_robots_txt`
(src/async_webcrawler.py line 130): `CrawlerRunConfig.__init__`
(src/async_configs.py lines 30-51) sets no attribute of that name and the
class body declares none, so the lookup raises `AttributeError`. -/
def CrawlerRunConfig.check_robots_txt (_ : CrawlerRunConfig) :
    Except PyErr Bool :=
  .error (.attributeError "check_robots_txt")

/-! ## Screenshot subsystem (take_screenshot / take_screenshot_scroller) -/

/-- External measurements/outcomes a screenshot call observes:
`page_height` is `document.documentElement.scrollHeight`;
`viewport_height` the page viewport height (each viewport screenshot
segment is an image of this height); `native_full_page_raises` says
whether `page.screenshot(full_page=True)` raises a Playwright `Error`. -/
structure ScreenshotEnv where
  page_height : Nat
  viewport_height : Nat
  native_full_page_raises : Bool := false
deriving DecidableEq, Repr

/-- Which capture path `take_screenshot` ends on. -/
inductive ScreenshotPath where
  | nativeFullPage
  | naiveViewport
  | scroller
deriving DecidableEq, Repr

/-- Result of the scroll-and-stitch strategy: a stitched image of the given
pixel height with `coverage` pixels pasted, or the black placeholder image
produced by the `except` branch. -/
inductive ScrollerResult where
  | stitched (height : Nat) (coverage : Nat)
  | placeholder
deriving DecidableEq, Repr

/-- `num_segments = (page_height // viewport_height) + (1 if page_height %
viewport_height > 0 else 0)`. -/
def num_segments (page_height viewport_height : Nat) : Nat :=
  page_height / viewport_height +
    (if page_height % viewport_height > 0 then 1 else 0)

/-- The paste offset after `n` loop iterations:
`offset += paste_height` with `paste_height = min(img.height, page_height -
offset)` and `img.height = viewport_height`. -/
def stitch_offset (page_height viewport_height : Nat) : Nat → Nat
  | 0 => 0
  | n + 1 =>
      let off := stitch_offset page_height viewport_height n
      off + min viewport_height (page_height - off)

/-- `take_screenshot_scroller`: capture `num_segments` viewport segments,
create a stitched image of height `page_height`, paste each segment cropped
to the remaining height.  `segments[0]` raises `IndexError` when no segment
was captured, which the `except` branch converts to a placeholder image. -/
def take_screenshot_scroller (env : ScreenshotEnv) : ScrollerResult :=
  let ns := num_segments env.page_height env.viewport_height
  if ns = 0 then .placeholder
  else .stitched env.page_height
    (stitch_offset env.page_height env.viewport_height ns)

/-- `take_screenshot`: page height above the configured threshold selects
the scroll-and-stitch path; otherwise a native `full_page=True` capture is
attempted, falling back to `take_screenshot_naive` (viewport capture) on a
Playwright `Error`. -/
def take_screenshot (bcfg : BrowserConfig) (env : ScreenshotEnv) :
    ScreenshotPath × Option ScrollerResult :=
  if bcfg.screenshot_height_threshold < env.page_height then
    (.scroller, some (take_screenshot_scroller env))
  else if env.native_full_page_raises then (.naiveViewport, none)
  else (.nativeFullPage, none)

/-! ## smart_wait (AsyncPlaywrightStrategy.smart_wait) -/

/-- The page-level calls `smart_wait` issues, in order. -/
inductive WaitAction where
  | waitForSelector (selector : String)
  | cspWait (script : String)
deriving DecidableEq, Repr

/-- Outcome of `page.wait_for_selector`: found, `PlaywrightTimeoutError`,
or a non-timeout Playwright `Error` (e.g. invalid selector syntax). -/
inductive SelectorOutcome where
  | found
  | timedOut
  | pageError (msg : String)
deriving DecidableEq, Repr

/-- Environment of one `smart_wait` call: what the page does for each
selector wait and what boolean each CSP-polling evaluation settles on
(`csp_compliant_wait` catches evaluation exceptions internally and
returns `False`, so it yields a `Bool`). -/
structure SmartWaitEnv where
  selector : String → SelectorOutcome
  cspResult : String → Bool

/-- `smart_wait`, returning the page calls made in order plus `none` for a
normal return or the exception raised. -/
def smart_wait (env : SmartWaitEnv) (wait_for : String) :
    List WaitAction × Option PyErr :=
  let w := strTrim wait_for
  if strStartsWith w "js:" then
    let js := strTrim (strDrop w 3)
    ([.cspWait js],
     if env.cspResult js then none else some (.timeoutError ("Timeout waiting for JS condition " ++ js)))
  else if strStartsWith w "css:" then
    let sel := strTrim (strDrop w 4)
    ([.waitForSelector sel],
     match env.selector sel with
     | .found => none
     | .timedOut => some (.timeoutError ("Timeout waiting for selector " ++ sel))
     | .pageError e => some (.valueError ("Invalid CSS selector " ++ sel ++ ": " ++ e)))
  else if strStartsWith w "()" || strStartsWith w "function" then
    ([.cspWait w],
     if env.cspResult w then none else some (.timeoutError ("Timeout waiting for JS function " ++ w)))
  else
    match env.selector w with
    | .found => ([.waitForSelector w], none)
    | .timedOut =>
        ([.waitForSelector w],
         some (.timeoutError ("Timeout waiting for selector " ++ w)))
    | .pageError _ =>
        -- fallback: retry the same string as a zero-argument function body
        let fallback := "() => \x7b" ++ w ++ "\x7d"
        ([.waitForSelector w, .cspWait fallback],
         if env.cspResult fallback then none
         else
           -- the PlaywrightTimeoutError raised inside the inner try is
           -- caught by its own `except Exception` and turned into ValueError
           some (.valueError ("Invalid wait_for parameter: " ++ w)))

/-! ## Crawl orchestrator (AsyncPlaywrightStrategy.crawl)

The model follows the source statement by statement from the point the
context and page exist.  External calls are resolved by a `CrawlEnv`
record; page/context lifecycle calls are recorded in a trace.  Python
locals that the source assigns only conditionally (`ssl_cert`,
`mhtml_data`, `final_html`, `final_status_code`) are modelled as `Option`
fields where `none` means *unbound*; reading an unbound local raises
`UnboundLocalError`. -/

abbrev SslCert := String

/-- `response.status` of the `js_execution_result` dict: either the report
of `robust_execute_user_script` or the literal error dict built at a
failure return site. -/
inductive JsExecResult where
  | report (success : Bool)
  | errorDict (msg : String)
deriving DecidableEq, Repr

/-- The capture artifacts of `AsyncCrawlResponse` (src/models.py); every
optional pydantic field defaults to `None`. -/
structure AsyncCrawlResponse where
  html : String
  status_code : Int
  js_execution_result : Option JsExecResult := none
  network_requests : Option (List String) := none
  console_messages : Option (List String) := none
  screenshot : Option String := none
  downloaded_files : Option (List String) := none
  ssl_certificate : Option SslCert := none
  mhtml_data : Option String := none
deriving DecidableEq, Repr

/-- Page/context lifecycle calls recorded by the crawl model. -/
inductive Action where
  | attach (event : String)
  | remove (event : String)
  | pageClose
  | contextClose
deriving DecidableEq, Repr

/-- Outcomes of the external calls one `crawl` invocation makes.
`goto` is `page.goto`: `.ok st` is a response (or `None`) and `.error msg`
a Playwright `Error` with message `msg`.  `content` is `page.content()`.
The stages that swallow all their exceptions internally
(`robust_execute_user_script`, `remove_overlay_elements`,
`process_iframes`, `capture_mhtml`) are represented by their returned
values only. -/
structure CrawlEnv where
  goto : Except String (Option Int) := .ok (some 200)
  js_success : Bool := true
  smart_wait_err : Option PyErr := none
  screenshot_outcome : Except String String := .ok "img"
  content : Except String String := .ok ""
  mhtml_result : Option String := none
  ssl_result : Option SslCert := none
  network_events : List String := []
  console_events : List String := []
  download_files : List String := []
  download_event_set : Bool := false
  download_wait_times_out : Bool := false
  page_close_raises : Bool := false
  context_close_raises : Bool := false

/-- The local variables of `crawl` live across the try/except boundaries.
Outer `Option` = Python *unbound*; the inner value is the Python value
(itself `Option` where the Python value may be `None`). -/
structure CrawlLocals where
  js_execution_result : Option JsExecResult := none
  screenshot_data : Option String := none
  response : Option Int := none
  ssl_cert : Option (Option SslCert) := none
  mhtml_data : Option (Option String) := none
  final_html : Option String := none
  final_status_code : Option Int := none

/-- Reading a local: `none` (never assigned on this path) raises
`UnboundLocalError`. -/
def readLocal (l : Option α) (name : String) : Except PyErr α :=
  match l with
  | some v => .ok v
  | none => .error (.unboundLocal name)

/-- The file-extension allowlist of `is_direct_download_url`. -/
def direct_download_exts : List String :=
  [".pdf", ".zip", ".doc", ".docx", ".xls", ".xlsx", ".png", ".jpg",
   ".jpeg", ".gif", ".mp4", ".mp3"]

def is_direct_download_url (url : String) : Bool :=
  direct_download_exts.any (fun ext => strEndsWith (strToLower url) ext)

/-- The inner `try` of `crawl` (navigation through finalization, source
lines 656-705).  Returns the locals as left when the block finished or
raised, plus the exception if one was raised. -/
def crawl_inner (url : String) (cfg : CrawlerRunConfig) (env : CrawlEnv)
    (l : CrawlLocals) : CrawlLocals × Option PyErr :=
  match env.goto with
  | .error msg => (l, some (.playwrightError msg))
  | .ok resp =>
    let l := { l with response := resp }
    let l := if cfg.js_code.isSome then
        { l with js_execution_result := some (.report env.js_success) }
      else l
    -- remove_overlay_elements catches all its exceptions internally
    match (if cfg.wait_for.isSome then env.smart_wait_err else none) with
    | some e => (l, some e)
    | none =>
      -- process_iframes catches all its exceptions internally
      let l := if cfg.capture_mhtml then
          { l with mhtml_data := some env.mhtml_result }
        else l
      match (if cfg.screenshot then env.screenshot_outcome.map some
             else .ok none) with
      | .error msg => (l, some (.playwrightError msg))
      | .ok shot =>
        let l := match shot with
          | some s => { l with screenshot_data := some s }
          | none => l
        -- finalization, lines 690-705
        match l.response with
        | some st =>
            (match env.content with
             | .ok h =>
                 ({ l with final_html := some h, final_status_code := some st },
                  none)
             | .error _ =>
                 ({ l with
                    final_html := some ""
                    final_status_code := some (if st ≠ 0 then st else 200) },
                  none))
        | none =>
            if is_direct_download_url url && env.download_event_set then
              ({ l with final_html := some "", final_status_code := some 200 },
               none)
            else
              ({ l with final_html := some "", final_status_code := some 0 },
               none)

/-- The success return site (source lines 739-749); keyword arguments are
evaluated left to right and reading an unbound local raises. -/
def build_success_response (cfg : CrawlerRunConfig) (l : CrawlLocals)
    (captured_requests captured_console downloaded : List String) :
    Except PyErr AsyncCrawlResponse := do
  let h ← readLocal l.final_html "final_html"
  let st ← readLocal l.final_status_code "final_status_code"
  let ssl ← if cfg.fetch_ssl_certificate then readLocal l.ssl_cert "ssl_cert"
            else pure none
  let mh ← readLocal l.mhtml_data "mhtml_data"
  pure { html := h, status_code := st,
         js_execution_result := l.js_execution_result,
         network_requests :=
           if cfg.capture_network_requests then some captured_requests else none,
         console_messages :=
           if cfg.capture_console_messages then some captured_console else none,
         screenshot := l.screenshot_data,
         downloaded_files := if downloaded ≠ [] then some downloaded else none,
         ssl_certificate := ssl, mhtml_data := mh }

/-- The navigation-failure return site (source lines 731-737); it passes
no `ssl_certificate` keyword but does read `mhtml_data`. -/
def build_nav_failure_response (cfg : CrawlerRunConfig) (l : CrawlLocals)
    (msg : String)
    (captured_requests captured_console downloaded : List String) :
    Except PyErr AsyncCrawlResponse := do
  let mh ← readLocal l.mhtml_data "mhtml_data"
  pure { html := "", status_code := 0,
         js_execution_result := some (.errorDict ("Navigation failed: " ++ msg)),
         network_requests :=
           if cfg.capture_network_requests then some captured_requests else none,
         console_messages :=
           if cfg.capture_console_messages then some captured_console else none,
         screenshot := none,
         downloaded_files := if downloaded ≠ [] then some downloaded else none,
         mhtml_data := mh }

/-- The top-level `except Exception` return site (source lines 753-760);
it reads `ssl_cert` (when the toggle is on) and `mhtml_data`; an
`UnboundLocalError` here escapes `crawl` entirely. -/
def build_top_failure_response (cfg : CrawlerRunConfig) (l : CrawlLocals)
    (e : PyErr)
    (captured_requests captured_console downloaded : List String) :
    Except PyErr AsyncCrawlResponse := do
  let ssl ← if cfg.fetch_ssl_certificate then readLocal l.ssl_cert "ssl_cert"
            else pure none
  let mh ← readLocal l.mhtml_data "mhtml_data"
  pure { html := "", status_code := 0,
         js_execution_result :=
           some (.errorDict ("Overall crawl failed: " ++ e.str)),
         network_requests :=
           if cfg.capture_network_requests then some captured_requests else none,
         console_messages :=
           if cfg.capture_console_messages then some captured_console else none,
         screenshot := none,
         downloaded_files := if downloaded ≠ [] then some downloaded else none,
         ssl_certificate := ssl, mhtml_data := mh }

/-- The listeners attached before navigation, in source order. -/
def attach_actions (bcfg : BrowserConfig) (cfg : CrawlerRunConfig) :
    List Action :=
  (if bcfg.accept_downloads then [.attach "download"] else []) ++
  (if cfg.capture_network_requests then
    [.attach "request", .attach "response"] else []) ++
  (if cfg.capture_console_messages then
    [.attach "console", .attach "pageerror"] else [])

/-- The listener removals of the `finally` block, in source order. -/
def remove_actions (bcfg : BrowserConfig) (cfg : CrawlerRunConfig) :
    List Action :=
  (if bcfg.accept_downloads then [.remove "download"] else []) ++
  (if cfg.capture_network_requests then
    [.remove "request", .remove "response"] else []) ++
  (if cfg.capture_console_messages then
    [.remove "console", .remove "pageerror"] else [])

/-- The `finally` block (source lines 762-772): remove the listeners, then
`await page.close()`, then `await context.close()` — with no guard, so an
exception from `page.close()` skips `context.close()` and replaces the
in-flight result. -/
def crawl_finally (bcfg : BrowserConfig) (cfg : CrawlerRunConfig)
    (env : CrawlEnv) : List Action × Option PyErr :=
  let removes := remove_actions bcfg cfg
  if env.page_close_raises then
    (removes ++ [.pageClose], some (.playwrightError "page.close failed"))
  else if env.context_close_raises then
    (removes ++ [.pageClose, .contextClose],
     some (.playwrightError "context.close failed"))
  else
    (removes ++ [.pageClose, .contextClose], none)

/-- The outer `try` body with its inner `except Error` handler (source
lines 645-749), given the pre-attached capture buffers.  Returns the
locals (the outer handler reads them) and either the built response or the
exception the outer `except Exception` will see. -/
def crawl_try (url : String) (cfg : CrawlerRunConfig) (bcfg : BrowserConfig)
    (env : CrawlEnv)
    (captured_requests captured_console downloaded : List String) :
    CrawlLocals × Except PyErr AsyncCrawlResponse :=
  let l0 : CrawlLocals := {}
  -- lines 646-652: SSL certificate fetch (from_url returns a value or None)
  let l0 := if cfg.fetch_ssl_certificate && strStartsWith url "https://" then
      { l0 with ssl_cert := some env.ssl_result }
    else l0
  let (l, innerErr) := crawl_inner url cfg env l0
  match innerErr with
  | none =>
      (l, build_success_response cfg l captured_requests captured_console
            downloaded)
  | some e =>
      if e.isPlaywrightError then
        -- inner `except Error as e` (line 707)
        if strContains e.str "net::ERR_ABORTED" && bcfg.accept_downloads
            && is_direct_download_url url then
          if env.download_wait_times_out then
            -- asyncio.TimeoutError is re-raised (line 720)
            (l, .error (.otherError "TimeoutError waiting for download"))
          else
            -- synthesize a status-200 pseudo-response and fall through to
            -- the success return site (which reads the still-unbound
            -- final_html on this path)
            let l := { l with response := some 200 }
            (l, build_success_response cfg l captured_requests
                  captured_console downloaded)
        else
          (l, build_nav_failure_response cfg l e.str captured_requests
                captured_console downloaded)
      else
        (l, .error e)

/-- `AsyncPlaywrightStrategy.crawl` from the point context and page exist:
listener attachment, the outer try with its top-level `except Exception`
handler, and the `finally` cleanup.  Returns the lifecycle trace and
either the response or the exception escaping `crawl`. -/
def crawl (url : String) (cfg : CrawlerRunConfig) (bcfg : BrowserConfig)
    (env : CrawlEnv) : List Action × Except PyErr AsyncCrawlResponse :=
  let captured_requests :=
    if cfg.capture_network_requests then env.network_events else []
  let captured_console :=
    if cfg.capture_console_messages then env.console_events else []
  let downloaded := if bcfg.accept_downloads then env.download_files else []
  let ct :=
    crawl_try url cfg bcfg env captured_requests captured_console downloaded
  let handled : Except PyErr AsyncCrawlResponse :=
    match ct.2 with
    | .ok r => .ok r
    | .error e =>
        build_top_failure_response cfg ct.1 e captured_requests captured_console
          downloaded
  let fin := crawl_finally bcfg cfg env
  (attach_actions bcfg cfg ++ fin.1,
   match fin.2 with
   | some e => .error e
   | none => handled)

/-! ## AsyncWebCrawler.arun (src/async_webcrawler.py) -/

/-- The fields of the `CrawlResult` record that `arun` populates. -/
structure CrawlResult where
  url : String
  html : String
  status_code : Int
  success : Bool
  error_message : Option String := none
  downloaded_files : Option (List String) := none
deriving DecidableEq, Repr

/-- `AsyncWebCrawler.arun`: the robots gate evaluates
`config.check_robots_txt` *outside* the `try`, so an exception there
escapes; exceptions from `crawler_strategy.crawl` are caught and turned
into a failed `CrawlResult`. -/
def arun (url : String) (cfg : CrawlerRunConfig) (bcfg : BrowserConfig)
    (env : CrawlEnv) : Except PyErr CrawlResult :=
  if strStartsWith url "http://" || strStartsWith url "https://" then
    match cfg.check_robots_txt with
    | .error e => .error e
    | .ok _robots =>
        -- unreachable: the attribute lookup always raises
        .error (.attributeError "check_robots_txt")
  else
    match (crawl url cfg bcfg env).2 with
    | .ok r =>
        .ok { url := url, html := r.html, status_code := r.status_code,
              success := true, downloaded_files := r.downloaded_files }
    | .error e =>
        .ok { url := url, html := "", status_code := 0, success := false,
              error_message := some e.str }

/-! ## Concrete documents and environments used in the theorems -/

/-- The parse of `"<html><body><p>hi</p></body></html>"`. -/
def docTiny : HForest :=
  .cons (.tag "html" [] (.cons (.tag "body" []
    (.cons (.tag "p" [] (.cons (.text "hi") .nil)) .nil)) .nil)) .nil

/-- The source text of `docTiny`. -/
def docTinyHtml : String := "<html><body><p>hi</p></body></html>"

/-- An environment in which every external call of `crawl` succeeds:
navigation returns a status-200 response and the final HTML is read back. -/
def happyEnv : CrawlEnv :=
  { goto := .ok (some 200), content := .ok "<html></html>" }

/-- The parse of a page with one long paragraph and no title/h1/meta. -/
def docPara : HForest :=
  .cons (.tag "html" [] (.cons (.tag "body" []
    (.cons (.tag "p" [] (.cons (.text "abcdefghij abcdefghij") .nil))
      .nil)) .nil)) .nil

/-- The source text of `docPara`. -/
def docParaHtml : String :=
  "<html><body><p>abcdefghij abcdefghij</p></body></html>"

/-- The first paragraph of `docTwoParas`. -/
def paraOne : HNode :=
  .tag "p" [] (.cons (.text "one two three four five") .nil)

/-- The second paragraph of `docTwoParas`. -/
def paraTwo : HNode :=
  .tag "p" [] (.cons (.text "alpha beta gamma delta epsilon") .nil)

/-- The body element of `docTwoParas`. -/
def bodyTwoParas : HNode :=
  .tag "body" [] (.cons paraOne (.cons paraTwo .nil))

/-- The parse of a page with two five-word paragraphs. -/
def docTwoParas : HForest :=
  .cons (.tag "html" [] (.cons bodyTwoParas .nil)) .nil

/-- The source text of `docTwoParas`. -/
def docTwoParasHtml : String :=
  "<html><body><p>one two three four five</p><p>alpha beta gamma delta epsilon</p></body></html>"

/-- A stand-in for the external rank_bm25 scorer that ranks only the first
corpus document above any threshold up to 1. -/
def bm25First : List (List String) → List String → Nat → ℚ :=
  fun _ _ i => if i = 0 then 1 else 0

/-- A page environment where every selector wait succeeds. -/
def waitEnvFound : SmartWaitEnv :=
  { selector := fun _ => .found, cspResult := fun _ => true }

/-- A page environment where every selector wait raises a non-timeout
page-level error and every CSP-polling evaluation settles on `true`. -/
def waitEnvError : SmartWaitEnv :=
  { selector := fun _ => .pageError "SyntaxError", cspResult := fun _ => true }

end AICrawler

deriving instance DecidableEq for Except

namespace AICrawler

section

attribute [local semireducible] Rat.mul Rat.inv Rat.add Rat.sub

/-- **C2** (status: code_bug): the claim says `filter_content` of both
relevance filters never raises, but `PruningContentFilter.filter_content`
raises `AttributeError` on the well-formed page
`<html><body><p>hi</p></body></html>` with the default threshold 0.45:
the body's own score is 0 (text below the minimum length), `_prune_tree`
decomposes the body, and the subsequent `soup.body.find_all(...)`
dereferences `None`.  The other two conjuncts check the documented
empty-input behavior that does hold: both filters return `[]` on empty
HTML. -/
theorem c2_pruning_filter_content_raises :
    Pruning_filter_content {} docTinyHtml docTiny
      = .error (.attributeError "find_all") ∧
    Pruning_filter_content {} "" HForest.nil = .ok [] ∧
    BM25_filter_content {} id (fun _ _ _ => 0) "" HForest.nil = [] := by
  refine ⟨by decide, rfl, rfl⟩

end

section

/-- **C1** (status: code_bug): the claim says no exception escapes
`AsyncPlaywrightStrategy.crawl`.  With a default `CrawlerRunConfig`
(`capture_mhtml=False`) the local `mhtml_data` is never assigned, yet the
success return site reads it, so even a fully successful navigation of
`http://example.com` raises `UnboundLocalError`; the top-level
`except Exception` handler reads the same unbound local again, so the
exception escapes `crawl`.  With `capture_mhtml=True` the same run
returns normally, confirming the failure is exactly the unbound local. -/
theorem c1_crawl_raises_unbound_local :
    (crawl "http://example.com" {} {} happyEnv).2 =
      .error (.unboundLocal "mhtml_data") ∧
    ((crawl "http://example.com" { capture_mhtml := true } {} happyEnv).2).isOk
      = true := by
  exact ⟨by decide, by decide⟩

/-- **C4** (status: code_bug): the claim says `AsyncWebCrawler.arun`
returns a `CrawlResult` rather than raising for every `http://` or
`https://` URL under a default `CrawlerRunConfig`.  In fact `arun`
evaluates `config.check_robots_txt` outside its `try` block, and
`CrawlerRunConfig.__init__` never sets that attribute, so `AttributeError`
escapes for exactly those URLs.  The third conjunct shows the `try` does
convert exceptions for non-robots-gated URLs: a `raw:` URL yields a
failed result record instead of an exception. -/
theorem c4_arun_raises_attribute_error :
    arun "http://example.com" {} {} happyEnv =
      .error (.attributeError "check_robots_txt") ∧
    arun "https://example.com" {} {} happyEnv =
      .error (.attributeError "check_robots_txt") ∧
    arun "raw:page" {} {} happyEnv =
      .ok { url := "raw:page", html := "", status_code := 0,
            success := false,
            error_message := some "UnboundLocalError: mhtml_data" } := by
  exact ⟨by decide, by decide, by decide⟩

/-- The attach/remove listener lists pair up: an event is attached exactly
when it is removed in the `finally` block, because both are guarded by the
same configuration flags. -/
theorem attach_iff_remove (bcfg : BrowserConfig) (cfg : CrawlerRunConfig)
    (ev : String) :
    Action.attach ev ∈ attach_actions bcfg cfg ↔
      Action.remove ev ∈ remove_actions bcfg cfg := by
  cases hd : bcfg.accept_downloads <;>
    cases hn : cfg.capture_network_requests <;>
      cases hc : cfg.capture_console_messages <;>
        simp [attach_actions, remove_actions, hd, hn, hc]

/-- Neither lifecycle close appears among the listener actions. -/
theorem close_not_mem_listener_actions (bcfg : BrowserConfig)
    (cfg : CrawlerRunConfig) :
    (attach_actions bcfg cfg).count Action.pageClose = 0 ∧
    (attach_actions bcfg cfg).count Action.contextClose = 0 ∧
    (remove_actions bcfg cfg).count Action.pageClose = 0 ∧
    (remove_actions bcfg cfg).count Action.contextClose = 0 := by
  cases hd : bcfg.accept_downloads <;>
    cases hn : cfg.capture_network_requests <;>
      cases hc : cfg.capture_console_messages <;>
        simp [attach_actions, remove_actions, hd, hn, hc]

/-- The lifecycle trace of `crawl` is the attach list followed by the
`finally` trace, whatever the run did in between. -/
theorem crawl_trace_eq (url : String) (cfg : CrawlerRunConfig)
    (bcfg : BrowserConfig) (env : CrawlEnv) :
    (crawl url cfg bcfg env).1 =
      attach_actions bcfg cfg ++ (crawl_finally bcfg cfg env).1 := rfl

/-- **C3** (status: corrected) — counterexample to the claim as stated:
the `finally` block of `crawl` is *not* guarded, so when `page.close()`
raises, `context.close()` is never executed (no `contextClose` in the
trace) and the close error replaces the result. -/
theorem c3_cleanup_unguarded_counterexample :
    Action.contextClose ∉
      (crawl "http://example.com" {} {}
        { happyEnv with page_close_raises := true }).1 ∧
    (crawl "http://example.com" {} {}
      { happyEnv with page_close_raises := true }).2 =
        .error (.playwrightError "page.close failed") := by
  exact ⟨by decide, by decide⟩

/-- **C3** amended: on every exit path (success, handled navigation error,
or top-level failure) the `finally` block removes exactly the listeners
that were attached before navigation and closes the page and then the
context exactly once each — *provided neither close raises*; the cleanup
sequence is unguarded, so this does not hold when a close raises (see the
counterexample). -/
theorem c3_cleanup_every_exit_path (url : String) (cfg : CrawlerRunConfig)
    (bcfg : BrowserConfig) (env : CrawlEnv)
    (h1 : env.page_close_raises = false)
    (h2 : env.context_close_raises = false) :
    (crawl url cfg bcfg env).1 =
      attach_actions bcfg cfg ++ remove_actions bcfg cfg ++
        [Action.pageClose, Action.contextClose] ∧
    (crawl url cfg bcfg env).1.count Action.pageClose = 1 ∧
    (crawl url cfg bcfg env).1.count Action.contextClose = 1 ∧
    ∀ ev, Action.attach ev ∈ (crawl url cfg bcfg env).1 →
      Action.remove ev ∈ (crawl url cfg bcfg env).1 := by
  have hfin : crawl_finally bcfg cfg env =
      (remove_actions bcfg cfg ++ [Action.pageClose, Action.contextClose],
       none) := by
    simp [crawl_finally, h1, h2]
  have htr : (crawl url cfg bcfg env).1 =
      attach_actions bcfg cfg ++ remove_actions bcfg cfg ++
        [Action.pageClose, Action.contextClose] := by
    rw [crawl_trace_eq, hfin, List.append_assoc]
  obtain ⟨ha1, ha2, hr1, hr2⟩ := close_not_mem_listener_actions bcfg cfg
  refine ⟨htr, ?_, ?_, ?_⟩
  · rw [htr]; simp [List.count_append, ha1, hr1]
  · rw [htr]; simp [List.count_append, ha2, hr2]
  · intro ev hev
    rw [htr] at hev ⊢
    simp only [List.mem_append] at hev ⊢
    rcases hev with (hev | hev) | hev
    · exact Or.inl (Or.inr ((attach_iff_remove bcfg cfg ev).mp hev))
    · exact absurd hev (by
        cases hd : bcfg.accept_downloads <;>
          cases hn : cfg.capture_network_requests <;>
            cases hc : cfg.capture_console_messages <;>
              simp [remove_actions, hd, hn, hc])
    · simp at hev

/-- Witness for `c3_cleanup_every_exit_path` at a concrete run. -/
theorem c3_cleanup_every_exit_path_witness :
    (crawl "http://example.com" {} {} happyEnv).1.count Action.pageClose = 1 ∧
    (crawl "http://example.com" {} {} happyEnv).1.count Action.contextClose
      = 1 :=
  ⟨(c3_cleanup_every_exit_path "http://example.com" {} {} happyEnv rfl
      rfl).2.1,
   (c3_cleanup_every_exit_path "http://example.com" {} {} happyEnv rfl
      rfl).2.2.1⟩

/-! ### Lemmas about the HTML tree operations (for C5) -/

theorem allTags_cons (n : HNode) (f : HForest) :
    (HForest.cons n f).allTags = selfTags n ++ f.allTags := by
  cases n <;> rfl

mutual
theorem mem_names_node (nm : String) :
    ∀ n : HNode, nm ∈ n.names ↔ ∃ x ∈ selfTags n, x.tagName = some nm
  | .tag name attrs c => by
      simp only [HNode.names, selfTags, List.mem_cons]
      constructor
      · rintro (rfl | h)
        · exact ⟨.tag nm attrs c, by simp [HNode.tagName]⟩
        · obtain ⟨x, hx, hxn⟩ := (mem_names_forest nm c).mp h
          exact ⟨x, Or.inr hx, hxn⟩
      · rintro ⟨x, hx | hx, hxn⟩
        · subst hx; simp [HNode.tagName] at hxn; exact Or.inl hxn.symm
        · exact Or.inr ((mem_names_forest nm c).mpr ⟨x, hx, hxn⟩)
  | .text s => by simp [HNode.names, selfTags]
  | .comment s => by simp [HNode.names, selfTags]

theorem mem_names_forest (nm : String) :
    ∀ f : HForest, nm ∈ f.names ↔ ∃ x ∈ f.allTags, x.tagName = some nm
  | .nil => by simp [HForest.names, HForest.allTags]
  | .cons n f => by
      rw [allTags_cons]
      simp only [HForest.names, List.mem_append]
      rw [mem_names_node nm n, mem_names_forest nm f]
      constructor
      · rintro (⟨x, hx, hxn⟩ | ⟨x, hx, hxn⟩)
        · exact ⟨x, Or.inl hx, hxn⟩
        · exact ⟨x, Or.inr hx, hxn⟩
      · rintro ⟨x, hx | hx, hxn⟩
        · exact Or.inl ⟨x, hx, hxn⟩
        · exact Or.inr ⟨x, hx, hxn⟩
end

/-- `findTag` succeeds exactly when the name occurs in the tree. -/
theorem findTag_isSome_iff (f : HForest) (nm : String) :
    (f.findTag nm).isSome = true ↔ nm ∈ f.names := by
  rw [mem_names_forest]
  unfold HForest.findTag
  rw [List.find?_isSome]
  constructor
  · rintro ⟨x, hx, hxn⟩; exact ⟨x, hx, by simpa using hxn⟩
  · rintro ⟨x, hx, hxn⟩; exact ⟨x, hx, by simpa using hxn⟩

/-- What `findTag` returns is a tag of the requested name. -/
theorem findTag_tagName (f : HForest) (nm : String) (t : HNode)
    (h : f.findTag nm = some t) : t.tagName = some nm := by
  have := List.find?_some h
  simpa using this

theorem findTag_eq_none_iff (f : HForest) (nm : String) :
    f.findTag nm = none ↔ nm ∉ f.names := by
  rw [← findTag_isSome_iff]
  cases f.findTag nm <;> simp

/-- `findTag` on a forest headed by a tag whose name differs: search the
children first, then the siblings. -/
theorem findTag_cons_tag_ne (name : String) (attrs : List (String × String))
    (c f : HForest) (nm : String) (hne : ¬ name = nm) :
    (HForest.cons (.tag name attrs c) f).findTag nm =
      (c.findTag nm).or (f.findTag nm) := by
  unfold HForest.findTag
  rw [allTags_cons]
  show List.find? _ ((HNode.tag name attrs c :: c.allTags) ++ f.allTags) = _
  rw [List.cons_append, List.find?_cons_of_neg, List.find?_append]
  simp [HNode.tagName, hne]

/-- `findTag` on a forest headed by a tag of the requested name returns
that tag. -/
theorem findTag_cons_tag_eq (attrs : List (String × String))
    (c f : HForest) (nm : String) :
    (HForest.cons (.tag nm attrs c) f).findTag nm =
      some (.tag nm attrs c) := by
  unfold HForest.findTag
  rw [allTags_cons]
  show List.find? _ ((HNode.tag nm attrs c :: c.allTags) ++ f.allTags) = _
  rw [List.cons_append, List.find?_cons_of_pos]
  simp [HNode.tagName]

theorem findTag_cons_text (s : String) (f : HForest) (nm : String) :
    (HForest.cons (.text s) f).findTag nm = f.findTag nm := by
  unfold HForest.findTag
  rw [allTags_cons]
  simp [selfTags]

theorem findTag_cons_comment (s : String) (f : HForest) (nm : String) :
    (HForest.cons (.comment s) f).findTag nm = f.findTag nm := by
  unfold HForest.findTag
  rw [allTags_cons]
  simp [selfTags]

/-- Replacing the first `body` tag by a tag named `body` makes that tag
the result of the next `body` lookup. -/
theorem findTag_replace_body_some (n' : HNode)
    (hn : n'.tagName = some "body") :
    ∀ f : HForest, (f.findTag "body").isSome = true →
      (replace_body (some n') f).findTag "body" = some n'
  | .nil => by intro h; simp [HForest.findTag, HForest.allTags] at h
  | .cons (.tag name attrs c) f => by
      intro h
      by_cases hname : name = "body"
      · subst hname
        obtain ⟨attrs', c', rfl⟩ : ∃ b d, n' = .tag "body" b d := by
          cases n' with
          | tag a b d =>
              simp only [HNode.tagName, Option.some.injEq] at hn
              exact ⟨b, d, by rw [hn]⟩
          | text s => simp [HNode.tagName] at hn
          | comment s => simp [HNode.tagName] at hn
        have hrw : replace_body (some (.tag "body" attrs' c'))
            (.cons (.tag "body" attrs c) f) =
            .cons (.tag "body" attrs' c') f := by
          simp [replace_body]
        rw [hrw, findTag_cons_tag_eq]
      · by_cases hc : (HForest.findTag c "body").isSome = true
        · have ih := findTag_replace_body_some n' hn c hc
          have hrw : replace_body (some n') (.cons (.tag name attrs c) f) =
              .cons (.tag name attrs (replace_body (some n') c)) f := by
            simp [replace_body, hname, hc]
          rw [hrw, findTag_cons_tag_ne _ _ _ _ _ hname, ih]
          rfl
        · have hcn : HForest.findTag c "body" = none := by
            cases hcc : HForest.findTag c "body" with
            | none => rfl
            | some t => rw [hcc] at hc; simp at hc
          have hf : (f.findTag "body").isSome = true := by
            rw [findTag_cons_tag_ne _ _ _ _ _ hname, hcn] at h
            simpa using h
          have ih := findTag_replace_body_some n' hn f hf
          have hrw : replace_body (some n') (.cons (.tag name attrs c) f) =
              .cons (.tag name attrs c) (replace_body (some n') f) := by
            simp [replace_body, hname, hc]
          rw [hrw, findTag_cons_tag_ne _ _ _ _ _ hname, hcn, ih]
          rfl
  | .cons (.text s) f => by
      intro h
      rw [findTag_cons_text] at h
      have ih := findTag_replace_body_some n' hn f h
      show (HForest.cons (.text s) (replace_body (some n') f)).findTag "body"
          = some n'
      rw [findTag_cons_text, ih]
  | .cons (.comment s) f => by
      intro h
      rw [findTag_cons_comment] at h
      have ih := findTag_replace_body_some n' hn f h
      show (HForest.cons (.comment s) (replace_body (some n') f)).findTag
          "body" = some n'
      rw [findTag_cons_comment, ih]

/-- Removing the only `body` tag leaves a forest with no `body` tag. -/
theorem not_mem_names_replace_body_none :
    ∀ f : HForest, f.names.count "body" ≤ 1 →
      "body" ∉ (replace_body none f).names
  | .nil => by intro _ h; simp [replace_body, HForest.names] at h
  | .cons (.tag name attrs c) f => by
      intro hcount
      simp only [HForest.names, HNode.names, List.count_append,
        List.count_cons] at hcount
      by_cases hname : name = "body"
      · subst hname
        have hrw : replace_body none (.cons (.tag "body" attrs c) f) = f := by
          simp [replace_body]
        rw [hrw]
        have : f.names.count "body" = 0 := by
          simp at hcount; omega
        exact List.count_eq_zero.mp this
      · by_cases hc : (HForest.findTag c "body").isSome = true
        · have hmemc : "body" ∈ c.names := (findTag_isSome_iff c "body").mp hc
          have hcpos : 1 ≤ c.names.count "body" :=
            List.one_le_count_iff.mpr hmemc
          have hrw : replace_body none (.cons (.tag name attrs c) f) =
              .cons (.tag name attrs (replace_body none c)) f := by
            simp [replace_body, hname, hc]
          rw [hrw]
          have ihc := not_mem_names_replace_body_none c (by simp [hname] at hcount; omega)
          have hfz : f.names.count "body" = 0 := by
            simp [hname] at hcount; omega
          have hfm : "body" ∉ f.names := List.count_eq_zero.mp hfz
          simp only [HForest.names, HNode.names, List.cons_append,
            List.mem_cons, List.mem_append]
          rintro (h | h | h)
          · exact hname h.symm
          · exact ihc h
          · exact hfm h
        · have hcm : "body" ∉ c.names := by
            intro hm
            exact absurd ((findTag_isSome_iff c "body").mpr hm) (by simpa using hc)
          have hrw : replace_body none (.cons (.tag name attrs c) f) =
              .cons (.tag name attrs c) (replace_body none f) := by
            simp [replace_body, hname, hc]
          rw [hrw]
          have ihf := not_mem_names_replace_body_none f (by simp [hname] at hcount; omega)
          simp only [HForest.names, HNode.names, List.cons_append,
            List.mem_cons, List.mem_append]
          rintro (h | h | h)
          · exact hname h.symm
          · exact hcm h
          · exact ihf h
  | .cons (.text s) f => by
      intro hcount
      simp only [HForest.names, HNode.names, List.nil_append] at hcount
      have hrw : replace_body none (.cons (.text s) f) =
          .cons (.text s) (replace_body none f) := by
        simp [replace_body]
      rw [hrw]
      have ihf := not_mem_names_replace_body_none f hcount
      simpa [HForest.names, HNode.names] using ihf
  | .cons (.comment s) f => by
      intro hcount
      simp only [HForest.names, HNode.names, List.nil_append] at hcount
      have hrw : replace_body none (.cons (.comment s) f) =
          .cons (.comment s) (replace_body none f) := by
        simp [replace_body]
      rw [hrw]
      have ihf := not_mem_names_replace_body_none f hcount
      simpa [HForest.names, HNode.names] using ihf

mutual
/-- The excluded-tag removal pass only deletes names. -/
theorem names_remove_excluded_node :
    ∀ n n' : HNode, remove_excluded_node n = some n' →
      n'.names.Sublist n.names
  | .tag name attrs c, n' => by
      intro h
      simp only [remove_excluded_node] at h
      by_cases he : is_excluded (.tag name attrs c)
      · rw [if_pos he] at h; exact absurd h (by simp)
      · rw [if_neg he] at h
        obtain rfl : HNode.tag name attrs (remove_excluded_forest c) = n' := by
          simpa using h
        simpa [HNode.names] using
          List.Sublist.cons₂ name (names_remove_excluded_forest c)
  | .text s, n' => by
      intro h
      obtain rfl : HNode.text s = n' := by simpa [remove_excluded_node] using h
      simp [HNode.names]
  | .comment s, n' => by
      intro h
      obtain rfl : HNode.comment s = n' := by
        simpa [remove_excluded_node] using h
      simp [HNode.names]

theorem names_remove_excluded_forest :
    ∀ f : HForest, (remove_excluded_forest f).names.Sublist f.names
  | .nil => by simp [remove_excluded_forest]
  | .cons n f => by
      show (match remove_excluded_node n with
            | none => remove_excluded_forest f
            | some n' => .cons n' (remove_excluded_forest f) :
          HForest).names.Sublist (HForest.cons n f).names
      cases hn : remove_excluded_node n with
      | none =>
          simp only [HForest.names]
          exact (names_remove_excluded_forest f).trans
            (List.sublist_append_right _ _)
      | some n' =>
          simp only [HForest.names]
          exact (names_remove_excluded_node n n' hn).append
            (names_remove_excluded_forest f)
end

mutual
/-- The comment-extraction pass only deletes names. -/
theorem names_remove_comments_node :
    ∀ n : HNode, (remove_comments_node n).names.Sublist n.names
  | .tag name attrs c => by
      simpa [remove_comments_node, HNode.names] using
        List.Sublist.cons₂ name (names_remove_comments_forest c)
  | .text s => by simp [remove_comments_node]
  | .comment s => by simp [remove_comments_node]

theorem names_remove_comments_forest :
    ∀ f : HForest, (remove_comments_forest f).names.Sublist f.names
  | .nil => by simp [remove_comments_forest]
  | .cons (.tag name attrs c) f => by
      simp only [remove_comments_forest, HForest.names]
      exact (names_remove_comments_node (.tag name attrs c)).append
        (names_remove_comments_forest f)
  | .cons (.text s) f => by
      simp only [remove_comments_forest, HForest.names]
      exact (names_remove_comments_node (.text s)).append
        (names_remove_comments_forest f)
  | .cons (.comment s) f => by
      simp only [remove_comments_forest, HForest.names, HNode.names]
      exact (names_remove_comments_forest f).trans (List.nil_append _ ▸
        (List.Sublist.refl _))
end

/-- A tag whose stripped text is below the absolute minimum length
(`min_word_count * 3` characters) scores zero. -/
theorem compute_node_score_short (cfg : PruningConfig) (name : String)
    (attrs : List (String × String)) (f : HForest)
    (h : ((HNode.tag name attrs f).get_text).length < min_word_count * 3) :
    compute_node_score cfg (.tag name attrs f) = 0 := by
  have h15 : ((HNode.tag name attrs f).get_text).length < 15 := by
    simpa [min_word_count] using h
  have hc : (((HNode.tag name attrs f).get_text).length : ℚ) <
      (min_word_count : ℚ) * 3 := by
    rw [show ((min_word_count : ℚ)) * 3 = 15 by norm_num [min_word_count]]
    exact_mod_cast h15
  simp only [compute_node_score, HNode.tagName, if_pos hc]

/-- A kept node of `_prune_tree` is the same tag over its pruned children. -/
theorem prune_tree_tag_eq (cfg : PruningConfig) (name : String)
    (attrs : List (String × String)) (f : HForest) (n' : HNode)
    (h : prune_tree cfg (.tag name attrs f) = some n') :
    n' = .tag name attrs (prune_forest cfg f) := by
  simp only [prune_tree] at h
  by_cases hs : compute_node_score cfg (.tag name attrs (prune_forest cfg f))
      < cfg.threshold
  · rw [if_pos hs] at h; exact absurd h (by simp)
  · rw [if_neg hs] at h; simpa using h.symm

mutual
/-- For a positive threshold, every tag surviving `_prune_tree` has
stripped text of at least the minimum absolute length — its own score was
at least the threshold, and a short text forces score zero. -/
theorem prune_tree_min_text (cfg : PruningConfig) (hθ : 0 < cfg.threshold) :
    ∀ n n' : HNode, prune_tree cfg n = some n' →
      ∀ u ∈ selfTags n', min_word_count * 3 ≤ (HNode.get_text u).length
  | .tag name attrs f, n' => by
      intro h u hu
      simp only [prune_tree] at h
      by_cases hs :
        compute_node_score cfg (.tag name attrs (prune_forest cfg f))
          < cfg.threshold
      · rw [if_pos hs] at h; exact absurd h (by simp)
      · rw [if_neg hs] at h
        obtain rfl : HNode.tag name attrs (prune_forest cfg f) = n' := by
          simpa using h
        simp only [selfTags] at hu
        rcases List.mem_cons.mp hu with rfl | hu
        · by_contra hlt
          push_neg at hlt
          rw [compute_node_score_short cfg name attrs (prune_forest cfg f)
            (by omega)] at hs
          exact hs hθ
        · exact prune_forest_min_text cfg hθ f u hu
  | .text s, n' => by
      intro h u hu
      obtain rfl : HNode.text s = n' := by simpa [prune_tree] using h
      simp [selfTags] at hu
  | .comment s, n' => by
      intro h u hu
      obtain rfl : HNode.comment s = n' := by simpa [prune_tree] using h
      simp [selfTags] at hu

theorem prune_forest_min_text (cfg : PruningConfig)
    (hθ : 0 < cfg.threshold) :
    ∀ f : HForest, ∀ u ∈ (prune_forest cfg f).allTags,
      min_word_count * 3 ≤ (HNode.get_text u).length
  | .nil => by intro u hu; simp [prune_forest, HForest.allTags] at hu
  | .cons (.tag name attrs c) f => by
      intro u hu
      rw [show prune_forest cfg (.cons (.tag name attrs c) f) =
          (match prune_tree cfg (.tag name attrs c) with
           | none => prune_forest cfg f
           | some n' => .cons n' (prune_forest cfg f)) from by
        simp [prune_forest]] at hu
      cases hp : prune_tree cfg (.tag name attrs c) with
      | none =>
          rw [hp] at hu
          exact prune_forest_min_text cfg hθ f u hu
      | some n' =>
          rw [hp] at hu
          simp only at hu
          rw [allTags_cons] at hu
          rcases List.mem_append.mp hu with hu | hu
          · exact prune_tree_min_text cfg hθ (.tag name attrs c) n' hp u hu
          · exact prune_forest_min_text cfg hθ f u hu
  | .cons (.text s) f => by
      intro u hu
      rw [show prune_forest cfg (.cons (.text s) f) =
          .cons (.text s) (prune_forest cfg f) from by simp [prune_forest],
        allTags_cons] at hu
      simp only [selfTags, List.nil_append] at hu
      exact prune_forest_min_text cfg hθ f u hu
  | .cons (.comment s) f => by
      intro u hu
      rw [show prune_forest cfg (.cons (.comment s) f) =
          .cons (.comment s) (prune_forest cfg f) from by simp [prune_forest],
        allTags_cons] at hu
      simp only [selfTags, List.nil_append] at hu
      exact prune_forest_min_text cfg hθ f u hu
end

/-- A node of a forest carries its whole subtree into the forest's tags. -/
theorem selfTags_sub_allTags :
    ∀ (f : HForest) (n : HNode), n ∈ f.toList →
      ∀ u ∈ selfTags n, u ∈ f.allTags
  | .nil, n => by intro hn; simp [HForest.toList] at hn
  | .cons m f, n => by
      intro hn u hu
      rcases List.mem_cons.mp (by simpa [HForest.toList] using hn)
        with rfl | hn'
      · rw [allTags_cons]; exact List.mem_append_left _ hu
      · rw [allTags_cons]
        exact List.mem_append_right _ (selfTags_sub_allTags f n hn' u hu)

end

section

attribute [local semireducible] Rat.mul Rat.inv Rat.add Rat.sub

/-- **C5** (status: corrected) — counterexample to the claim as stated:
the claim quantifies over *any* threshold value, but `_prune_tree` drops a
node only when `score < threshold`, so with threshold `0` a zero-scoring
node below the minimum text length survives and appears in the output. -/
theorem c5_zero_threshold_counterexample :
    Pruning_filter_content { threshold := 0 } docTinyHtml docTiny =
      .ok ["<p>hi</p>"] ∧
    compute_node_score { threshold := 0 }
      (.tag "p" [] (.cons (.text "hi") .nil)) = 0 ∧
    (HNode.tag "p" [] (.cons (.text "hi") .nil)).serialize = "<p>hi</p>" ∧
    ((HNode.tag "p" [] (.cons (.text "hi") .nil)).get_text).length <
      min_word_count * 3 := by
  refine ⟨by decide, by decide, by decide, by decide⟩

end

section

/-- **C5** amended: a tag below the minimum absolute text length
(`min_word_count * 3` stripped characters) scores zero unconditionally,
and for every *positive* threshold such a tag is never present in
`filter_content`'s output (every returned fragment serializes a tree all
of whose tags meet the minimum length).  The `soup` hypothesis is the
parser invariant that an lxml-parsed document has at most one `body`
element. -/
theorem c5_short_nodes_never_output (cfg : PruningConfig)
    (hθ : 0 < cfg.threshold) (html : String) (soup : HForest)
    (hub : soup.names.count "body" ≤ 1) (out : List String)
    (hout : Pruning_filter_content cfg html soup = .ok out) :
    (∀ (name : String) (attrs : List (String × String)) (f : HForest),
        ((HNode.tag name attrs f).get_text).length < min_word_count * 3 →
        compute_node_score cfg (.tag name attrs f) = 0) ∧
    ∀ s ∈ out, ∃ t : HNode, s = t.serialize ∧
      ∀ u ∈ selfTags t, min_word_count * 3 ≤ (HNode.get_text u).length := by
  refine ⟨fun name attrs f h =>
    compute_node_score_short cfg name attrs f h, ?_⟩
  by_cases hh : html = ""
  · simp only [Pruning_filter_content, if_pos hh, Except.ok.injEq] at hout
    subst hout
    simp
  · simp only [Pruning_filter_content, if_neg hh] at hout
    have hcount :
        (remove_comments_forest (remove_excluded_forest soup)).names.count
          "body" ≤ 1 :=
      le_trans (List.Sublist.count_le
        ((names_remove_comments_forest _).trans
          (names_remove_excluded_forest _)) _) hub
    cases hfind : (remove_comments_forest
        (remove_excluded_forest soup)).findTag "body" with
    | none =>
        simp only [hfind, Except.ok.injEq] at hout
        subst hout
        simp
    | some body =>
        simp only [hfind] at hout
        obtain ⟨battrs, bforest, rfl⟩ : ∃ b d, body = .tag "body" b d := by
          have := findTag_tagName _ "body" body hfind
          cases body with
          | tag a b d =>
              simp only [HNode.tagName, Option.some.injEq] at this
              exact ⟨b, d, by rw [this]⟩
          | text s => simp [HNode.tagName] at this
          | comment s => simp [HNode.tagName] at this
        cases hpr : prune_tree cfg (.tag "body" battrs bforest) with
        | none =>
            rw [hpr] at hout
            rw [(findTag_eq_none_iff _ _).mpr
              (not_mem_names_replace_body_none _ hcount)] at hout
            simp at hout
        | some b' =>
            rw [hpr] at hout
            obtain rfl : b' =
                .tag "body" battrs (prune_forest cfg bforest) :=
              prune_tree_tag_eq _ _ _ _ _ hpr
            rw [findTag_replace_body_some _ (by simp [HNode.tagName]) _
              (by rw [hfind]; rfl)] at hout
            simp only [Except.ok.injEq] at hout
            intro s hs
            rw [← hout] at hs
            obtain ⟨c, hc, rfl⟩ := List.mem_map.mp hs
            refine ⟨c, rfl, ?_⟩
            intro u hu
            have hcmem : c ∈ (prune_forest cfg bforest).toList :=
              List.mem_of_mem_filter hc
            exact prune_forest_min_text cfg hθ bforest u
              (selfTags_sub_allTags _ c hcmem u hu)

end

section

attribute [local semireducible] Rat.mul Rat.inv Rat.add Rat.sub

/-- Witness for `c5_short_nodes_never_output` on a concrete page whose
only paragraph is long enough to survive the default threshold. -/
theorem c5_short_nodes_never_output_witness :
    ∃ t : HNode, "<p>abcdefghij abcdefghij</p>" = t.serialize ∧
      ∀ u ∈ selfTags t, min_word_count * 3 ≤ (HNode.get_text u).length :=
  (c5_short_nodes_never_output {} (by decide) docParaHtml docPara (by decide)
      ["<p>abcdefghij abcdefghij</p>"] (by decide)).2
    "<p>abcdefghij abcdefghij</p>" (by decide)

end

section

/-! ### C6: screenshot subsystem -/

theorem stitch_offset_eq_min (ph vh : Nat) :
    ∀ n, stitch_offset ph vh n = min (n * vh) ph := by
  intro n
  induction n with
  | zero => simp [stitch_offset]
  | succ k ih =>
      rw [stitch_offset, ih, Nat.succ_mul]
      generalize k * vh = m
      omega

/-- The segment count covers the page: `num_segments * viewport ≥ page`. -/
theorem num_segments_mul_ge (ph vh : Nat) (hvh : 0 < vh) (hph : 0 < ph) :
    0 < num_segments ph vh ∧ ph ≤ num_segments ph vh * vh := by
  have hd := Nat.div_add_mod ph vh
  have hm := Nat.mod_lt ph hvh
  unfold num_segments
  rcases Nat.eq_zero_or_pos (ph % vh) with hz | hp
  · rw [hz, Nat.add_zero] at hd
    simp only [hz, gt_iff_lt, lt_irrefl, if_false, Nat.add_zero]
    cases hq : ph / vh with
    | zero => rw [hq, Nat.mul_zero] at hd; omega
    | succ q => rw [hq] at hd; rw [Nat.mul_comm]; omega
  · have hif : (if ph % vh > 0 then 1 else 0) = 1 := by
      simp [hp]
    rw [hif]
    constructor
    · exact Nat.succ_pos _
    · rw [Nat.succ_mul, Nat.mul_comm]
      omega

/-- The stitch loop pastes exactly the measured page height. -/
theorem scroller_coverage (ph vh : Nat) (hvh : 0 < vh) (hph : 0 < ph) :
    num_segments ph vh ≠ 0 ∧
    stitch_offset ph vh (num_segments ph vh) = ph := by
  obtain ⟨h1, h2⟩ := num_segments_mul_ge ph vh hvh hph
  refine ⟨by omega, ?_⟩
  rw [stitch_offset_eq_min]
  omega

/-- **C6** (status: confirmed): the screenshot path decision compares the
measured page height to the configured threshold; at exactly the
threshold the native whole-page capture runs (falling back to the naive
viewport capture when the native mode errors), and at threshold + 1 the
segmented scroll-and-stitch path runs and produces a stitched image whose
pixel height — and pasted coverage — equal the measured page height. -/
theorem c6_screenshot_threshold_paths (bcfg : BrowserConfig)
    (env : ScreenshotEnv) (hvh : 0 < env.viewport_height) :
    (env.page_height = bcfg.screenshot_height_threshold →
      (take_screenshot bcfg env).1 =
        (if env.native_full_page_raises then ScreenshotPath.naiveViewport
         else ScreenshotPath.nativeFullPage) ∧
      (take_screenshot bcfg env).2 = none) ∧
    (env.page_height = bcfg.screenshot_height_threshold + 1 →
      take_screenshot bcfg env =
        (ScreenshotPath.scroller,
         some (.stitched env.page_height env.page_height))) := by
  constructor
  · intro heq
    have hnot : ¬ bcfg.screenshot_height_threshold < env.page_height := by
      omega
    by_cases hr : env.native_full_page_raises <;>
      simp [take_screenshot, hnot, hr]
  · intro hsucc
    have hlt : bcfg.screenshot_height_threshold < env.page_height := by omega
    have hph : 0 < env.page_height := by omega
    obtain ⟨hns, hcov⟩ :=
      scroller_coverage env.page_height env.viewport_height hvh hph
    simp [take_screenshot, hlt, take_screenshot_scroller, hns, hcov]

/-- Witness for `c6_screenshot_threshold_paths` at the default threshold
15000 and a 1080-pixel viewport. -/
theorem c6_screenshot_threshold_paths_witness :
    (take_screenshot {} { page_height := 15000, viewport_height := 1080 }).1 =
      ScreenshotPath.nativeFullPage ∧
    take_screenshot {} { page_height := 15001, viewport_height := 1080 } =
      (ScreenshotPath.scroller, some (.stitched 15001 15001)) := by
  constructor
  · have h := (c6_screenshot_threshold_paths {}
      { page_height := 15000, viewport_height := 1080 } (by decide)).1 rfl
    simpa using h.1
  · exact (c6_screenshot_threshold_paths {}
      { page_height := 15001, viewport_height := 1080 } (by decide)).2 rfl

/-! ### C8: smart_wait dispatch -/

/-- **C8** (status: corrected) — counterexample to the claim as stated:
`"() => true"` carries neither the `js:` nor the `css:` prefix, yet
`smart_wait` never tries it as a CSS selector — the auto-detection branch
for strings starting with `"()"` or `"function"` sends it straight to the
CSP polling wait. -/
theorem c8_function_string_counterexample :
    strStartsWith (strTrim "() => true") "js:" = false ∧
    strStartsWith (strTrim "() => true") "css:" = false ∧
    (smart_wait waitEnvFound "() => true").1 =
      [WaitAction.cspWait "() => true"] := by
  refine ⟨by decide, by decide, by decide⟩

/-- **C8** amended: for every `wait_for` string with neither the `js:` nor
the `css:` prefix *that does not start with `"()"` or `"function"`*, the
string is first tried as a CSS selector; a timeout of that attempt raises
a timeout error without any JS retry, and only a page-level error makes
`smart_wait` retry the same string as a zero-argument function body. -/
theorem c8_smart_wait_css_first (env : SmartWaitEnv) (wait_for : String)
    (h1 : strStartsWith (strTrim wait_for) "js:" = false)
    (h2 : strStartsWith (strTrim wait_for) "css:" = false)
    (h3 : strStartsWith (strTrim wait_for) "()" = false)
    (h4 : strStartsWith (strTrim wait_for) "function" = false) :
    (smart_wait env wait_for).1.head? =
      some (.waitForSelector (strTrim wait_for)) ∧
    (env.selector (strTrim wait_for) = .timedOut →
      smart_wait env wait_for =
        ([.waitForSelector (strTrim wait_for)],
         some (.timeoutError
           ("Timeout waiting for selector " ++ strTrim wait_for)))) ∧
    (∀ msg, env.selector (strTrim wait_for) = .pageError msg →
      (smart_wait env wait_for).1 =
        [.waitForSelector (strTrim wait_for),
         .cspWait ("() => \x7b" ++ strTrim wait_for ++ "\x7d")]) := by
  have hcore : smart_wait env wait_for =
      (match env.selector (strTrim wait_for) with
       | .found => ([.waitForSelector (strTrim wait_for)], none)
       | .timedOut =>
           ([.waitForSelector (strTrim wait_for)],
            some (.timeoutError
              ("Timeout waiting for selector " ++ strTrim wait_for)))
       | .pageError _ =>
           ([.waitForSelector (strTrim wait_for),
             .cspWait ("() => \x7b" ++ strTrim wait_for ++ "\x7d")],
            if env.cspResult ("() => \x7b" ++ strTrim wait_for ++ "\x7d")
            then none
            else some (.valueError
              ("Invalid wait_for parameter: " ++ strTrim wait_for)))) := by
    simp only [smart_wait, h1, h2, h3, h4, Bool.false_eq_true, if_false,
      Bool.or_self]
  refine ⟨?_, ?_, ?_⟩
  · rw [hcore]
    cases env.selector (strTrim wait_for) <;> simp
  · intro ht
    rw [hcore, ht]
  · intro msg hmsg
    rw [hcore, hmsg]

/-- Witness for `c8_smart_wait_css_first`: a plain selector string on a
page whose selector wait raises a non-timeout error. -/
theorem c8_smart_wait_css_first_witness :
    (smart_wait waitEnvError "div.content").1 =
      [.waitForSelector (strTrim "div.content"),
       .cspWait ("() => \x7b" ++ strTrim "div.content" ++ "\x7d")] :=
  (c8_smart_wait_css_first waitEnvError "div.content" (by decide) (by decide)
    (by decide) (by decide)).2.2 "SyntaxError" rfl

/-! ### C9 and C10: relevance filter algebra -/

/-- **C9** (status: confirmed): `filter_content` of both strategies
mutates neither the filter object (the source writes no attribute of
`self`) nor its input (each call parses `html` afresh), so running the
same filter twice with identical input and configuration yields identical
results — including the case where the pruning filter raises: it raises
identically both times. -/
theorem c9_filters_idempotent (cfgB : BM25Config) (cfgP : PruningConfig)
    (stemWords : List String → List String)
    (bm25 : List (List String) → List String → Nat → ℚ)
    (html : String) (soup : HForest) :
    (BM25_run cfgB stemWords bm25 html soup).2 = cfgB ∧
    (BM25_run ((BM25_run cfgB stemWords bm25 html soup).2) stemWords bm25
        html soup).1 = (BM25_run cfgB stemWords bm25 html soup).1 ∧
    (Pruning_run cfgP html soup).2 = cfgP ∧
    (Pruning_run ((Pruning_run cfgP html soup).2) html soup).1 =
      (Pruning_run cfgP html soup).1 :=
  ⟨rfl, rfl, rfl, rfl⟩

/-- **C10** (status: confirmed): with no user query and no title text, no
h1 element and no meta-description content, the derived page query is
empty and `BM25ContentFilter.filter_content` returns `[]` regardless of
the body. -/
theorem c10_empty_derived_query (cfg : BM25Config)
    (stemWords : List String → List String)
    (bm25 : List (List String) → List String → Nat → ℚ)
    (html : String) (soup : HForest)
    (huq : cfg.user_query = none)
    (ht : title_part soup = none)
    (hh : soup.findTag "h1" = none)
    (hm : meta_part soup = none) :
    extract_page_query cfg.user_query soup = "" ∧
    BM25_filter_content cfg stemWords bm25 html soup = [] := by
  have hh1 : h1_part soup = none := by simp [h1_part, hh]
  have hq : extract_page_query cfg.user_query soup = "" := by
    simp [extract_page_query, huq, optStrTruthy, ht, hh1, hm, joinSep]
  refine ⟨hq, ?_⟩
  unfold BM25_filter_content
  by_cases hhtml : html = ""
  · simp [hhtml]
  · simp only [if_neg hhtml]
    cases hb : soup.findTag "body" with
    | none => simp
    | some body => simp [hq]

/-- Witness for `c10_empty_derived_query` on a page whose body holds a
long paragraph but whose head has no title, h1 or meta description. -/
theorem c10_empty_derived_query_witness :
    BM25_filter_content {} id (fun _ _ _ => 0) docParaHtml docPara = [] :=
  (c10_empty_derived_query {} id (fun _ _ _ => 0) docParaHtml docPara rfl
    (by rfl) (by rfl) (by rfl)).2

/-! ### C7: BM25 threshold selection -/

/-- Enumeration produces strictly increasing indices. -/
theorem enum_pairwise_fst (l : List HNode) :
    l.enum.Pairwise (fun a b => a.1 < b.1) := by
  rw [List.pairwise_iff_getElem]
  intro i j hi hj hij
  simp only [List.getElem_enum]
  simpa using hij

/-- The candidate chunks of `extract_text_chunks` carry strictly
increasing original indices (their position in the `find_all`
enumeration). -/
theorem extract_text_chunks_pairwise (body : HNode) :
    (extract_text_chunks body).Pairwise (fun a b => a.1 < b.1) := by
  unfold extract_text_chunks
  refine List.Pairwise.filterMap _ ?_ (enum_pairwise_fst _)
  intro a a' hlt b hb b' hb'
  rw [Option.mem_def] at hb hb'
  have hb1 : b.1 = a.1 := by
    by_cases he : is_excluded a.2 <;> simp [he] at hb
    · by_cases hw : min_word_count ≤ wordCount a.2.get_text <;>
        simp [hw] at hb
      rw [← hb]
  have hb1' : b'.1 = a'.1 := by
    by_cases he : is_excluded a'.2 <;> simp [he] at hb'
    · by_cases hw : min_word_count ≤ wordCount a'.2.get_text <;>
        simp [hw] at hb'
      rw [← hb']
  rw [hb1, hb1']
  exact hlt

/-- Zipping with a second list preserves pairwise facts about the first
components. -/
theorem pairwise_zip_fst {α β : Type} {R : α → α → Prop} :
    ∀ (l : List α) (m : List β), l.Pairwise R →
      (l.zip m).Pairwise (fun p q => R p.1 q.1)
  | [], _, _ => by simp
  | _ :: _, [], _ => by simp
  | a :: l, b :: m, h => by
      rw [List.zip_cons_cons]
      rcases List.pairwise_cons.mp h with ⟨h1, h2⟩
      refine List.Pairwise.cons ?_ (pairwise_zip_fst l m h2)
      rintro ⟨qa, qb⟩ hq
      exact h1 qa (List.of_mem_zip hq).1

/-- A `filterMap` whose predicate selects exactly one position returns the
image of that position alone. -/
theorem filterMap_eq_singleton_of_unique {α β : Type} (g : α → Option β) :
    ∀ (l : List α) (k : Nat) (hk : k < l.length),
      (∀ i, ∀ hi : i < l.length,
        ((g (l.get ⟨i, hi⟩)).isSome = true ↔ i = k)) →
      l.filterMap g = (g (l.get ⟨k, hk⟩)).toList
  | [], k, hk, _ => by simp at hk
  | a :: l, 0, hk, h => by
      have h0 : (g a).isSome = true := by
        simpa using (h 0 (by simp)).mpr rfl
      rw [List.filterMap_cons]
      cases hga : g a with
      | none => rw [hga] at h0; simp at h0
      | some b =>
          have hnil : l.filterMap g = [] := by
            rw [List.filterMap_eq_nil_iff]
            intro x hx
            obtain ⟨⟨i, hi⟩, rfl⟩ := List.mem_iff_get.mp hx
            have hi1 : i + 1 < (a :: l).length := by
              simpa using Nat.succ_lt_succ hi
            have hiff := h (i + 1) hi1
            simp only [Nat.succ_ne_zero, iff_false] at hiff
            exact Option.not_isSome_iff_eq_none.mp (by simpa using hiff)
          rw [hnil]
          have hget : (a :: l).get ⟨0, hk⟩ = a := rfl
          rw [hget, hga]
          rfl
  | a :: l, k + 1, hk, h => by
      have hga : g a = none := by
        have h0 := h 0 (by simp)
        simp only [show (0 = k + 1) = False from by simp, iff_false] at h0
        exact Option.not_isSome_iff_eq_none.mp (by simpa using h0)
      rw [List.filterMap_cons, hga]
      have hk' : k < l.length := by simpa using Nat.lt_of_succ_lt_succ hk
      have ih := filterMap_eq_singleton_of_unique g l k hk' (by
        intro i hi
        have hiff := h (i + 1) (by simpa using Nat.succ_lt_succ hi)
        simpa using hiff)
      rw [ih]
      rfl

/-- **C7** (status: confirmed): `BM25ContentFilter.filter_content` keeps
exactly the candidate chunks whose BM25 score reaches the threshold, in
original document order (the final sort by original index is the identity
because candidate indices are already increasing); consequently, when
exactly one candidate reaches the threshold, the output is exactly that
candidate's serialized HTML. -/
theorem c7_bm25_threshold_selection (cfg : BM25Config)
    (stemWords : List String → List String)
    (bm25 : List (List String) → List String → Nat → ℚ)
    (html : String) (soup : HForest) (body : HNode)
    (hhtml : ¬ html = "")
    (hbody : soup.findTag "body" = some body)
    (hq : ¬ extract_page_query cfg.user_query soup = "")
    (hc : (extract_text_chunks body).isEmpty = false) :
    BM25_filter_content cfg stemWords bm25 html soup =
      ((extract_text_chunks body).zip
        ((List.range (extract_text_chunks body).length).map
          (bm25 ((extract_text_chunks body).map
              (fun c => tokenize stemWords c.2.1))
            (tokenize stemWords
              (extract_page_query cfg.user_query soup))))).filterMap
        (fun p => if cfg.bm25_threshold ≤ p.2 then some p.1.2.2.serialize
                  else none) ∧
    ∀ (k : Nat) (hk : k < (extract_text_chunks body).length),
      (∀ i, i < (extract_text_chunks body).length →
        (cfg.bm25_threshold ≤
          bm25 ((extract_text_chunks body).map
              (fun c => tokenize stemWords c.2.1))
            (tokenize stemWords (extract_page_query cfg.user_query soup)) i ↔
         i = k)) →
      BM25_filter_content cfg stemWords bm25 html soup =
        [((extract_text_chunks body).get ⟨k, hk⟩).2.2.serialize] := by
  set cands := extract_text_chunks body with hcands
  set corpus := cands.map (fun c => tokenize stemWords c.2.1) with hcorpus
  set tq := tokenize stemWords (extract_page_query cfg.user_query soup)
    with htq
  set scores := (List.range cands.length).map (bm25 corpus tq) with hscores
  have hfc : BM25_filter_content cfg stemWords bm25 html soup =
      (((cands.zip scores).filterMap
        (fun p => if cfg.bm25_threshold ≤ p.2
                  then some (p.1.1, p.1.2.2.serialize)
                  else none)).insertionSort (fun a b => a.1 ≤ b.1)).map
        (·.2) := by
    rw [BM25_filter_content]
    rw [if_neg hhtml, hbody]
    simp only [← hcands, ← hcorpus, ← htq, ← hscores, if_neg hq, hc,
      Bool.false_eq_true, if_false]
  have hpw : ((cands.zip scores).filterMap
      (fun p => if cfg.bm25_threshold ≤ p.2
                then some (p.1.1, p.1.2.2.serialize)
                else none)).Pairwise
      (fun a b : Nat × String => a.1 < b.1) := by
    refine List.Pairwise.filterMap _ ?_
      (pairwise_zip_fst cands scores (extract_text_chunks_pairwise body))
    intro p q hpq b hb b' hb'
    rw [Option.mem_def] at hb hb'
    by_cases hp : cfg.bm25_threshold ≤ p.2 <;> simp [hp] at hb
    by_cases hq2 : cfg.bm25_threshold ≤ q.2 <;> simp [hq2] at hb'
    rw [← hb, ← hb']
    exact hpq
  have hsorted := List.Sorted.insertionSort_eq
    (hpw.imp (fun h => le_of_lt h))
  rw [hsorted] at hfc
  have hfuse : ((cands.zip scores).filterMap
      (fun p => if cfg.bm25_threshold ≤ p.2
                then some (p.1.1, p.1.2.2.serialize)
                else none)).map (·.2) =
      (cands.zip scores).filterMap
        (fun p => if cfg.bm25_threshold ≤ p.2 then some p.1.2.2.serialize
                  else none) := by
    rw [List.map_filterMap]
    congr 1
    funext p
    by_cases hp : cfg.bm25_threshold ≤ p.2 <;> simp [hp]
  rw [hfuse] at hfc
  have hzlen : (cands.zip scores).length = cands.length := by
    rw [List.length_zip, hscores, List.length_map, List.length_range]
    exact Nat.min_self _
  refine ⟨hfc, ?_⟩
  intro k hk hone
  have hkz : k < (cands.zip scores).length := by rw [hzlen]; exact hk
  have hzip_get : ∀ i, ∀ hi : i < (cands.zip scores).length,
      (cands.zip scores).get ⟨i, hi⟩ =
        (cands.get ⟨i, by rw [← hzlen]; exact hi⟩, bm25 corpus tq i) := by
    intro i hi
    have hi1 : i < cands.length := by rw [← hzlen]; exact hi
    have hi2 : i < scores.length := by
      rw [hscores, List.length_map, List.length_range]; exact hi1
    have hzx := @List.getElem_zip _ _ cands scores i hi
    rw [List.get_eq_getElem, hzx]
    congr 1
    simp [hscores]
  have happ := filterMap_eq_singleton_of_unique
    (fun p : (Nat × String × HNode) × ℚ =>
      if cfg.bm25_threshold ≤ p.2 then some p.1.2.2.serialize else none)
    (cands.zip scores) k hkz (by
      intro i hi
      rw [hzip_get i hi]
      by_cases hsc : cfg.bm25_threshold ≤ bm25 corpus tq i
      · simp only [hsc, if_true, Option.isSome_some]
        simpa using (hone i (by rw [← hzlen]; exact hi)).mp hsc
      · simp only [hsc, if_false, Option.isSome_none]
        constructor
        · intro hfalse; exact absurd hfalse (by simp)
        · intro hik
          exact absurd ((hone i (by rw [← hzlen]; exact hi)).mpr hik) hsc)
  rw [hfc, happ, hzip_get k hkz]
  have hsck : cfg.bm25_threshold ≤ bm25 corpus tq k :=
    (hone k hk).mpr rfl
  simp only [hsck, if_true]
  rfl

end

section

attribute [local semireducible] Rat.mul Rat.inv Rat.add Rat.sub

/-- Witness for `c7_bm25_threshold_selection`: a two-paragraph page where
the external scorer ranks only the first paragraph above the threshold —
the output is exactly that paragraph's serialized HTML. -/
theorem c7_bm25_threshold_selection_witness :
    BM25_filter_content { user_query := some "query" } id bm25First
      docTwoParasHtml docTwoParas = ["<p>one two three four five</p>"] := by
  have h := (c7_bm25_threshold_selection { user_query := some "query" } id
    bm25First docTwoParasHtml docTwoParas bodyTwoParas (by decide) (by rfl)
    (by decide) (by decide)).2 0 (by decide)
    (by
      intro i hi
      have hi2 : i < 2 := lt_of_lt_of_eq hi (by rfl)
      interval_cases i <;> decide)
  exact h.trans (by rfl)

end

end AICrawler
